import Mathlib

/-!
Verification of the diff-anchored comment synthesis and delivery pipeline
of the ai-code-review-action repository.

The definitions below are a shallow embedding of the TypeScript source:
  * `mapLineToDiff`, `getOriginalLineContent` — ReviewOrchestrator.mapLineToDiff /
    getOriginalLineContent (src/review/orchestrator.ts);
  * `isValidSuggestion` — ReviewOrchestrator.isValidSuggestion;
  * `processIssue`, `createReviewComments` — ReviewOrchestrator.createReviewComments;
  * `createReview`, `postReviewComments`, `postGeneralComment`, `truncateBody` —
    GitHubClient (src/github/client.ts), modelled as the list of API deliveries
    a call performs;
  * `postReviewPhase` — the post-review step of ReviewOrchestrator.runReview;
  * `withRetry`, `isRetryable` — src/utils/retry.ts, modelled over a sequence of
    attempt outcomes, paired with the number of operation invocations.
JavaScript strings are modelled as Lean `String` (one Char per code point),
JavaScript numbers as `Int` where the source can go negative (`currentLine`)
and `Nat` elsewhere.
-/

/-! ## String utilities (JS semantics) -/

/-- JS `hay.includes(need)`: substring containment. -/
def strContains (hay need : String) : Bool :=
  (List.range (hay.data.length + 1)).any (fun i => need.data.isPrefixOf (hay.data.drop i))

/-- JS `s.toLowerCase()` restricted to ASCII, which is all the source compares. -/
def strToLower (s : String) : String :=
  String.mk (s.data.map Char.toLower)

/-- JS `s.toUpperCase()` restricted to ASCII. -/
def strToUpper (s : String) : String :=
  String.mk (s.data.map Char.toUpper)

/-- JS `s.startsWith(c)` for a one-character marker. -/
def startsWithChar (s : String) (c : Char) : Bool :=
  match s.data with
  | [] => false
  | d :: _ => d == c

/-- JS `s.split(c)[0]` for a one-character separator: the text before the first
separator, or the whole string when there is none. -/
def beforeFirstColon (s : String) : String :=
  String.mk (s.data.takeWhile (fun c => c != ':'))

/-- JS `s.trim()`: strip whitespace from both ends (structural definition over
the character list; the whitespace set is the ASCII one the source encounters). -/
def strTrim (s : String) : String :=
  String.mk (((s.data.dropWhile Char.isWhitespace).reverse.dropWhile Char.isWhitespace).reverse)

/-! ## DiffIndexer: ReviewOrchestrator.mapLineToDiff

The source matches each patch line against the UNANCHORED regular expression
/@@ -\d+(?:,\d+)? \+(\d+)(?:,\d+)? @@/ and, on a match, resets the new-file
line counter from the captured newStart. The regex is deterministic (the
optional groups never need backtracking), so the leftmost-match search is
modelled by trying a direct parse at every start position, left to right. -/

/-- Decimal digits to a number, JS `parseInt(ds, 10)`. -/
def digitsToNat (ds : List Char) : Nat :=
  ds.foldl (fun acc c => acc * 10 + (c.toNat - 48)) 0

/-- Consume the optional `(?:,\d+)?` group: a comma followed by at least one
digit, or nothing. -/
def skipCommaDigits (cs : List Char) : List Char :=
  match cs with
  | ',' :: rest =>
    if (rest.takeWhile Char.isDigit).isEmpty then cs
    else rest.dropWhile Char.isDigit
  | _ => cs

/-- Parse `@@ -\d+(?:,\d+)? \+(\d+)(?:,\d+)? @@` at the start of `cs`,
returning the captured newStart. -/
def parseHeaderAt : List Char → Option Nat
  | '@' :: '@' :: ' ' :: '-' :: rest =>
    let ds1 := rest.takeWhile Char.isDigit
    if ds1.isEmpty then none
    else
      match skipCommaDigits (rest.dropWhile Char.isDigit) with
      | ' ' :: '+' :: r2 =>
        let ds2 := r2.takeWhile Char.isDigit
        if ds2.isEmpty then none
        else
          match skipCommaDigits (r2.dropWhile Char.isDigit) with
          | ' ' :: '@' :: '@' :: _ => some (digitsToNat ds2)
          | _ => none
      | _ => none
  | _ => none

/-- Leftmost match of the hunk-header pattern anywhere in the character list. -/
def findHunkHeaderAux : List Char → Option Nat
  | [] => none
  | c :: rest =>
    match parseHeaderAt (c :: rest) with
    | some n => some n
    | none => findHunkHeaderAux rest

/-- JS `line.match(/@@ -\d+(?:,\d+)? \+(\d+)(?:,\d+)? @@/)`, returning the
captured newStart of the first (leftmost) match. -/
def findHunkHeader (line : String) : Option Nat :=
  findHunkHeaderAux line.data

/-- The scan loop of ReviewOrchestrator.mapLineToDiff: `i` is the 0-based scan
index into the whole patch, `currentLine` the new-file line counter
(`parseInt(newStart) - 1` can be negative in JS, hence `Int`). -/
def mapLineToDiffAux (targetLine : Int) :
    List String → Nat → Int → Bool → Option Nat
  | [], _, _, _ => none
  | line :: rest, i, currentLine, inHunk =>
    match findHunkHeader line with
    | some newStart => mapLineToDiffAux targetLine rest (i + 1) ((newStart : Int) - 1) true
    | none =>
      if inHunk = false then
        mapLineToDiffAux targetLine rest (i + 1) currentLine inHunk
      else if startsWithChar line '+' then
        if currentLine + 1 = targetLine then some (i + 1)
        else mapLineToDiffAux targetLine rest (i + 1) (currentLine + 1) inHunk
      else if startsWithChar line '-' then
        mapLineToDiffAux targetLine rest (i + 1) currentLine inHunk
      else
        mapLineToDiffAux targetLine rest (i + 1) (currentLine + 1) inHunk

/-- ReviewOrchestrator.mapLineToDiff: map a new-file line number to the
1-indexed physical position in the patch blob, or `none` when unmapped. -/
def mapLineToDiff (targetLine : Int) (patchLines : List String) : Option Nat :=
  mapLineToDiffAux targetLine patchLines 0 0 false

/-- ReviewOrchestrator.getOriginalLineContent: the text at a 1-indexed patch
position, stripped of a leading `+`; `none` for removed lines, headers and
out-of-range positions. -/
def getOriginalLineContent (lineNumber : Nat) (patchLines : List String) : Option String :=
  if lineNumber < 1 ∨ patchLines.length < lineNumber then none
  else
    match patchLines.get? (lineNumber - 1) with
    | none => none
    | some line =>
      if startsWithChar line '+' then some (String.mk line.data.tail)
      else if startsWithChar line '-' = false ∧ startsWithChar line '@' = false then some line
      else none

/-! ## SuggestionValidator: ReviewOrchestrator.isValidSuggestion -/

/-- The fixed advisory-phrase list of the source, in source order. -/
def adviceIndicators : List String :=
  ["consider", "should", "could", "would", "might",
   "ensure", "verify", "check", "pin to", "e.g.,",
   "for example", "you can", "it is", "this is"]

/-- ReviewOrchestrator.isValidSuggestion. The baseline test is on JS falsiness
(`if (!originalLine)`), so an empty-string original is rejected exactly like a
`null` one. -/
def isValidSuggestion (suggestion : String) (originalLine : Option String) : Bool :=
  if suggestion.length = 0 ∨ (strTrim suggestion).length = 0 then false
  else if suggestion.data.contains '\n' || suggestion.data.contains '\r' then false
  else
    match originalLine with
    | none => false
    | some o =>
      if o.length = 0 then false
      else
        let ts := strTrim suggestion
        let tor := strTrim o
        if ts = tor then false
        else if adviceIndicators.any (fun ind => strContains (strToLower ts) ind) then false
        else if tor.data.contains ':' && ts.data.contains ':' then
          if strTrim (beforeFirstColon tor) = strTrim (beforeFirstColon ts) then true else false
        else true

/-! ## CommentSynthesizer: ReviewOrchestrator.createReviewComments -/

/-- The issue shape of src/types.ts (ReviewIssue); `suggestion` is optional. -/
structure ReviewIssue where
  line : Int
  severity : String
  category : String
  message : String
  suggestion : Option String
deriving DecidableEq, Repr

/-- The comment shape handed to the delivery collaborator (ReviewComment of
src/types.ts, with the fields createReviewComments fills). -/
structure ReviewComment where
  path : String
  line : Nat
  body : String
  side : String
deriving DecidableEq, Repr

/-- ReviewOrchestrator.getSeverityEmoji. -/
def getSeverityEmoji (severity : String) : String :=
  if severity = "critical" then "🔴"
  else if severity = "warning" then "🟡"
  else if severity = "suggestion" then "💡"
  else if severity = "info" then "ℹ️"
  else "📝"

/-- The category label: `issue.category ? \x60**${...toUpperCase()}**\x60 : ""`. -/
def categoryLabel (category : String) : String :=
  if category.length = 0 then "" else "**" ++ strToUpper category ++ "**"

/-- The first body section: severity emoji, space, category label. -/
def headSection (issue : ReviewIssue) : String :=
  getSeverityEmoji issue.severity ++ " " ++ categoryLabel issue.category

/-- The fenced single-line replacement block appended for a validated
suggestion. -/
def suggBlock (s : String) : String :=
  "\n**Suggestion:**\n```suggestion\n" ++ s ++ "\n```"

/-- The suggestion section of the body: the fenced block when
`issue.suggestion && isValidSuggestion(...)` is truthy, `""` otherwise. -/
def suggestionSection (issue : ReviewIssue) (originalLine : Option String) : String :=
  match issue.suggestion with
  | none => ""
  | some s =>
    if s.length != 0 && isValidSuggestion s originalLine then suggBlock s else ""

/-- Body assembly: the four sections, `filter(Boolean)` (drops empty strings),
`join("\n")`. -/
def mkCommentBody (issue : ReviewIssue) (originalLine : Option String) : String :=
  String.intercalate "\n"
    (([headSection issue, "", issue.message,
       suggestionSection issue originalLine]).filter (fun p => p.length != 0))

/-- One loop iteration of createReviewComments: map the line, drop the issue
when unmapped, otherwise emit the comment (side "RIGHT"). -/
def processIssue (filePath : String) (issue : ReviewIssue)
    (patchLines : List String) : Option ReviewComment :=
  match mapLineToDiff issue.line patchLines with
  | none => none
  | some n =>
    some { path := filePath, line := n,
           body := mkCommentBody issue (getOriginalLineContent n patchLines),
           side := "RIGHT" }

/-- ReviewOrchestrator.createReviewComments over a whole issue list. -/
def createReviewComments (filePath : String) (issues : List ReviewIssue)
    (patchLines : List String) : List ReviewComment :=
  issues.filterMap (fun issue => processIssue filePath issue patchLines)

/-! ## Delivery: GitHubClient, modelled as the API calls a method performs -/

/-- One remote API call: a formal review (pulls.createReview), one inline
comment (pulls.createReviewComment), or one general comment
(issues.createComment). -/
inductive Delivery where
  | review : List ReviewComment → String → String → Delivery
  | reviewComment : ReviewComment → Delivery
  | generalComment : String → Delivery
deriving DecidableEq, Repr

/-- The marker GitHubClient appends when it truncates a body. -/
def truncMarker : String := "\n\n... (truncated)"

/-- The truncation both createReview and postGeneralComment apply to their
`body` argument: `body.length > 65000 ? body.substring(0, 65000) + marker : body`. -/
def truncateBody (body : String) : String :=
  if 65000 < body.length then String.mk (body.data.take 65000) ++ truncMarker else body

/-- GitHubClient.createReview: returns without any API call when the comment
list is empty; otherwise posts one review with the truncated body and the
comments unchanged. -/
def createReview (comments : List ReviewComment) (body : String)
    (event : String) : List Delivery :=
  if comments.length = 0 then []
  else [Delivery.review comments (truncateBody body) event]

/-- GitHubClient.postReviewComments: returns without any API call when empty;
otherwise posts each comment individually, bodies unchanged (no truncation). -/
def postReviewComments (comments : List ReviewComment) : List Delivery :=
  if comments.length = 0 then []
  else comments.map Delivery.reviewComment

/-- GitHubClient.postGeneralComment: posts one issue comment with the
truncated body. -/
def postGeneralComment (body : String) : List Delivery :=
  [Delivery.generalComment (truncateBody body)]

/-- The per-file result entries runReview accumulates. -/
structure FileResult where
  filePath : String
  summary : String
  issueCount : Nat
  criticalCount : Nat
  warningCount : Nat
  suggestionCount : Nat
deriving DecidableEq, Repr

/-- ReviewOrchestrator.formatReviewBody. -/
def formatReviewBody (summary : String) (fileResults : List FileResult)
    (criticalIssues warnings suggestions : Nat) : String :=
  let stats :=
    ([if 0 < criticalIssues then "🔴 " ++ toString criticalIssues ++ " critical" else "",
      if 0 < warnings then "🟡 " ++ toString warnings ++ " warnings" else "",
      if 0 < suggestions then "💡 " ++ toString suggestions ++ " suggestions"
      else ""]).filter (fun x => x.length != 0)
  "## Open Review\n\n" ++ summary ++ "\n\n### Summary\n" ++
  (if 0 < stats.length then String.intercalate " | " stats else "✅ No issues found") ++
  "\n\n### Files Reviewed\n" ++
  String.intercalate "\n"
    (fileResults.map (fun r =>
      "- " ++ r.filePath ++
      (if 0 < r.issueCount then
        " (" ++ toString r.issueCount ++ " comment" ++
        (if 1 < r.issueCount then "s" else "") ++ ")"
      else ""))) ++
  "\n\n---\n*This review was generated by AI. Please review the suggestions carefully before applying them.*"

/-- The approval body runReview builds when no comment was produced. -/
def approvalBody (overallSummary : String) : String :=
  "## ✅ AI Code Review Complete\n\n" ++ overallSummary ++
  "\n\n**No issues found!** Great job! 🎉"

/-- The posting step of ReviewOrchestrator.runReview (its final if/else on
`totalComments > 0`), returning every API call the run performs there. -/
def postReviewPhase (postAsReview : Bool) (allComments : List ReviewComment)
    (overallSummary : String) (fileResults : List FileResult)
    (criticalIssues warnings suggestions : Nat) : List Delivery :=
  if 0 < allComments.length then
    let reviewBody := formatReviewBody overallSummary fileResults
      criticalIssues warnings suggestions
    if postAsReview then createReview allComments reviewBody "COMMENT"
    else postReviewComments allComments ++ postGeneralComment reviewBody
  else
    let approval := approvalBody overallSummary
    if postAsReview then createReview [] approval "APPROVE"
    else postGeneralComment approval

/-- The run-level body a delivery carries, when it carries one: the review
body or the general-comment body (per-comment bodies are not run-level). -/
def deliverySummaryBody : Delivery → Option String
  | Delivery.review _ b _ => some b
  | Delivery.generalComment b => some b
  | Delivery.reviewComment _ => none

/-! ## RetryExecutor: withRetry of src/utils/retry.ts -/

/-- The options record, after defaulting. -/
structure RetryOptions where
  maxAttempts : Nat
  backoffMs : Nat
  maxBackoffMs : Nat
  retryableErrors : List String
deriving DecidableEq, Repr

/-- A JS Error, by the only part the retry logic reads: its message. -/
structure Err where
  message : String
deriving DecidableEq, Repr

/-- The default retryable marker list of withRetry. -/
def defaultRetryableErrors : List String :=
  ["ETIMEDOUT", "ECONNRESET", "ECONNREFUSED", "429", "503", "502", "504"]

/-- isRetryable: the lowercased message contains some lowercased marker. -/
def isRetryable (e : Err) (retryableErrors : List String) : Bool :=
  retryableErrors.any (fun r => strContains (strToLower e.message) (strToLower r))

/-- What a withRetry call ends in: a value, a non-retryable error rethrown
unchanged, the RetryExhaustedError wrapper (original error, attempt count), or
the unreachable-for-positive-maxAttempts fall-through throw after the loop. -/
inductive RetryResult (T : Type) where
  | ok : T → RetryResult T
  | failed : Err → RetryResult T
  | exhausted : Err → Nat → RetryResult T
  | fellThrough : RetryResult T
deriving DecidableEq, Repr

/-- The retry loop, driven by the outcome of each 1-indexed attempt; the
second component counts operation invocations. The fuel starts at
`maxAttempts`, mirroring `for (attempt = 1; attempt <= maxAttempts; attempt++)`;
on failure the source checks exhaustion BEFORE retryability. -/
def withRetryLoop {T : Type} (op : Nat → Except Err T) (cfg : RetryOptions) :
    Nat → Nat → RetryResult T × Nat
  | _, 0 => (RetryResult.fellThrough, 0)
  | attempt, fuel + 1 =>
    match op attempt with
    | Except.ok v => (RetryResult.ok v, 1)
    | Except.error e =>
      if attempt = cfg.maxAttempts then (RetryResult.exhausted e attempt, 1)
      else if isRetryable e cfg.retryableErrors then
        let r := withRetryLoop op cfg (attempt + 1) fuel
        (r.1, r.2 + 1)
      else (RetryResult.failed e, 1)

/-- withRetry: run the loop from attempt 1. -/
def withRetry {T : Type} (op : Nat → Except Err T) (cfg : RetryOptions) :
    RetryResult T × Nat :=
  withRetryLoop op cfg 1 cfg.maxAttempts

/-! ## Concrete instances used by the theorems below -/

/-- The diff blob of spec §8's first testable property, split at newlines as
createReviewComments does. -/
def claimBlob : List String :=
  ["@@ -1,3 +1,5 @@", " line1", "+lineA", "+lineB", " line2"]

/-- A blob whose second line is an added line that merely QUOTES a hunk
header; the unanchored header regex still matches it. -/
def quotedHeaderBlob : List String :=
  ["@@ -1,1 +1,2 @@", "+@@ -1,1 +5,1 @@ quoted", "+real"]

/-- A minimal mappable blob: one hunk, one added line. -/
def tinyBlob : List String := ["@@ -1,1 +1,1 @@", "+x"]

/-- A 70000-character comment body, beyond the 65000-character ceiling. -/
def bigBody : String := String.mk (List.replicate 70000 'a')

/-- A review comment carrying `bigBody`. -/
def bigComment : ReviewComment :=
  { path := "file.ts", line := 2, body := bigBody, side := "RIGHT" }

/-- An error whose message matches no default retryable marker. -/
def invalidErr : Err := { message := "Invalid request" }

/-- An error whose message is a default retryable marker. -/
def timeoutErr : Err := { message := "ETIMEDOUT" }

/-- Retry options with a single attempt. -/
def oneAttempt : RetryOptions :=
  { maxAttempts := 1, backoffMs := 1000, maxBackoffMs := 30000,
    retryableErrors := defaultRetryableErrors }

/-- The default retry options of withRetry. -/
def threeAttempts : RetryOptions :=
  { maxAttempts := 3, backoffMs := 1000, maxBackoffMs := 30000,
    retryableErrors := defaultRetryableErrors }

/-- An issue whose suggestion is advisory prose ("should"), hence
inadmissible. -/
def demoIssue : ReviewIssue :=
  { line := 1, severity := "warning", category := "style", message := "msg",
    suggestion := some "you should fix this" }

/-- The blob `demoIssue` is reviewed against: its line 1 is the added line at
physical position 2. -/
def demoBlob : List String := ["@@ -1,1 +1,1 @@", "+hello"]

/-! ## Theorems -/

/-- C3 counterexample: on the spec's example diff, mapping new-file line 1
does NOT return diff position 3 — it is unmapped, because the first line of
the hunk is the context line " line1", so new-file line 1 is never an added
line. -/
theorem c3_counterexample : mapLineToDiff 1 claimBlob = none := by decide

/-- C3 (amended): on that diff the FIRST ADDED line "+lineA" is new-file
line 2, and mapping new-file line 2 returns diff position 3 (1-indexed,
counting the hunk header as position 1). -/
theorem c3_first_added_line :
    mapLineToDiff 2 claimBlob = some 3 ∧ claimBlob.get? 2 = some "+lineA" := by
  constructor
  · decide
  · rfl

/-- C10: validation against an empty-string original line is rejected, exactly
like an unknown (none) baseline, because the source tests JS falsiness
(`if (!originalLine)`) rather than null. -/
theorem c10_empty_original_rejected :
    ∀ suggestion : String,
      isValidSuggestion suggestion (some "") = false ∧
      isValidSuggestion suggestion none = false := by
  intro s
  constructor
  · unfold isValidSuggestion
    split
    · rfl
    · split
      · rfl
      · rfl
  · unfold isValidSuggestion
    split
    · rfl
    · split
      · rfl
      · rfl

/-- C9: a '+' line that merely quotes a hunk header ("+@@ -1,1 +5,1 @@ quoted",
position 2 of `quotedHeaderBlob`) is treated as a header by the unanchored
regex: the counter is reset from the embedded newStart 5 (so only target 5
maps, to the following line at position 3) and the quoting line itself is
never returned as a diff position (no target maps to position 2). -/
theorem c9_embedded_header_reset :
    (∀ t : Int, mapLineToDiff t quotedHeaderBlob = if t = 5 then some 3 else none) ∧
    quotedHeaderBlob.get? 1 = some "+@@ -1,1 +5,1 @@ quoted" ∧
    startsWithChar "+@@ -1,1 +5,1 @@ quoted" '+' = true ∧
    findHunkHeader "+@@ -1,1 +5,1 @@ quoted" = some 5 := by
  refine ⟨?_, rfl, by decide, by decide⟩
  intro t
  by_cases h : t = 5
  · subst h; decide
  · rw [if_neg h]
    have h0 : findHunkHeader "@@ -1,1 +1,2 @@" = some 1 := by decide
    have h1 : findHunkHeader "+@@ -1,1 +5,1 @@ quoted" = some 5 := by decide
    have h2 : findHunkHeader "+real" = none := by decide
    have h3 : startsWithChar "+real" '+' = true := by decide
    simp only [mapLineToDiff, quotedHeaderBlob, mapLineToDiffAux, h0, h1, h2, h3]
    norm_num
    intro he
    exact absurd he.symm h

/-- Soundness of the scan loop: whatever position it returns points at a line
of the remaining input that starts with '+'; stated with the running index so
the induction goes through. -/
theorem mapLineToDiffAux_plus (t : Int) (lines : List String) :
    ∀ (i : Nat) (cur : Int) (inHunk : Bool) (n : Nat),
      mapLineToDiffAux t lines i cur inHunk = some n →
      i + 1 ≤ n ∧ ∃ line, lines.get? (n - 1 - i) = some line ∧
        startsWithChar line '+' = true := by
  induction lines with
  | nil => intro i cur inHunk n h; simp [mapLineToDiffAux] at h
  | cons line rest IH =>
    intro i cur inHunk n h
    have step : ∀ (cur' : Int) (inHunk' : Bool),
        mapLineToDiffAux t rest (i + 1) cur' inHunk' = some n →
        i + 1 ≤ n ∧ ∃ l, (line :: rest).get? (n - 1 - i) = some l ∧
          startsWithChar l '+' = true := by
      intro cur' inHunk' h'
      obtain ⟨hn, l, hl, hp⟩ := IH (i + 1) cur' inHunk' n h'
      refine ⟨by omega, l, ?_, hp⟩
      have he : n - 1 - i = (n - 1 - (i + 1)) + 1 := by omega
      rw [he, List.get?_cons_succ]
      exact hl
    unfold mapLineToDiffAux at h
    split at h
    · exact step _ _ h
    · split at h
      · exact step _ _ h
      · split at h
        · rename_i hplus
          split at h
          · injection h with hn
            subst hn
            refine ⟨Nat.le_refl _, line, ?_, hplus⟩
            have : i + 1 - 1 - i = 0 := by omega
            rw [this]
            rfl
          · exact step _ _ h
        · split at h
          · exact step _ _ h
          · exact step _ _ h

/-- C6: whenever the line-to-position mapping returns a diff position, the
blob line at that 1-indexed position begins with '+', and never with '-'. -/
theorem c6_mapped_position_is_added_line (targetLine : Int) (patchLines : List String)
    (n : Nat) (h : mapLineToDiff targetLine patchLines = some n) :
    ∃ line, patchLines.get? (n - 1) = some line ∧
      startsWithChar line '+' = true ∧ startsWithChar line '-' = false := by
  obtain ⟨hn, l, hl, hp⟩ := mapLineToDiffAux_plus targetLine patchLines 0 0 false n h
  refine ⟨l, ?_, hp, ?_⟩
  · simpa using hl
  · unfold startsWithChar at hp ⊢
    cases hd : l.data with
    | nil => rfl
    | cons d ds =>
      rw [hd] at hp
      have hdp : d = '+' := by simpa using hp
      subst hdp
      rfl

/-- C6 witness: at target line 1 of `tinyBlob` the mapping returns position 2,
and that position is the added line "+x". -/
theorem c6_mapped_position_is_added_line_witness :
    ∃ line, tinyBlob.get? (2 - 1) = some line ∧
      startsWithChar line '+' = true ∧ startsWithChar line '-' = false :=
  c6_mapped_position_is_added_line 1 tinyBlob 2 (by decide)

/-- C1 (the failing input evaluated): with zero comments across all files, the
postAsReview path calls createReview with event APPROVE and an empty comment
list, but the client's empty-comments guard returns before any API call, so
NOTHING is delivered; with postAsReview disabled the approval body IS
delivered as a general comment. -/
theorem c1_approval_delivery_eval :
    postReviewPhase true [] "All good" [] 0 0 0 = [] ∧
    postReviewPhase false [] "All good" [] 0 0 0 =
      [Delivery.generalComment (approvalBody "All good")] := by
  constructor
  · rfl
  · decide

/-- C2 counterexample: a per-comment body of length 70000 is handed to the
individual-comment delivery unchanged, exceeding 65000 plus the truncation
marker — per-comment bodies are never truncated. -/
theorem c2_truncation_counterexample :
    postReviewComments [bigComment] = [Delivery.reviewComment bigComment] ∧
    65000 + truncMarker.length < bigComment.body.length := by
  constructor
  · rfl
  · show 65000 + truncMarker.length < bigBody.length
    have h1 : truncMarker.length = 17 := rfl
    have h2 : bigBody.length = 70000 := by
      show (List.replicate 70000 'a').length = 70000
      exact List.length_replicate 70000 'a'
    rw [h1, h2]
    norm_num

/-- The truncation bound: a truncated body never exceeds 65000 characters plus
the marker. -/
theorem truncateBody_length_le (b : String) :
    (truncateBody b).length ≤ 65000 + truncMarker.length := by
  unfold truncateBody
  split
  · rw [String.length_append]
    have h2 : (String.mk (b.data.take 65000)).length ≤ 65000 := by
      show (b.data.take 65000).length ≤ 65000
      simp [List.length_take]
    omega
  · rename_i hle
    omega

/-- C2 (amended): every run-level body a delivery carries (review body or
general-comment body) is truncated to at most 65000 characters plus the
marker before handoff, while per-comment bodies are delivered exactly as the
comments carry them (no truncation). -/
theorem c2_truncation_amended (postAsReview : Bool) (allComments : List ReviewComment)
    (overallSummary : String) (fileResults : List FileResult)
    (criticalIssues warnings suggestions : Nat) (d : Delivery)
    (hd : d ∈ postReviewPhase postAsReview allComments overallSummary fileResults
            criticalIssues warnings suggestions) :
    (∀ b, deliverySummaryBody d = some b → b.length ≤ 65000 + truncMarker.length) ∧
    (∀ c, d = Delivery.reviewComment c → c ∈ allComments) := by
  unfold postReviewPhase at hd
  split at hd
  · split at hd
    · unfold createReview at hd
      split at hd
      · simp at hd
      · simp at hd
        subst hd
        refine ⟨?_, ?_⟩
        · intro b hb
          simp [deliverySummaryBody] at hb
          rw [← hb]
          exact truncateBody_length_le _
        · intro c hc
          cases hc
    · rw [List.mem_append] at hd
      cases hd with
      | inl h1 =>
        unfold postReviewComments at h1
        split at h1
        · simp at h1
        · rw [List.mem_map] at h1
          obtain ⟨c, hc, hdc⟩ := h1
          subst hdc
          refine ⟨?_, ?_⟩
          · intro b hb
            simp [deliverySummaryBody] at hb
          · intro c' hc'
            injection hc' with he
            rw [← he]
            exact hc
      | inr h2 =>
        unfold postGeneralComment at h2
        simp at h2
        subst h2
        refine ⟨?_, ?_⟩
        · intro b hb
          simp [deliverySummaryBody] at hb
          rw [← hb]
          exact truncateBody_length_le _
        · intro c hc
          cases hc
  · split at hd
    · unfold createReview at hd
      split at hd
      · simp at hd
      · rename_i hlen hne
        exact absurd rfl hne
    · unfold postGeneralComment at hd
      simp at hd
      subst hd
      refine ⟨?_, ?_⟩
      · intro b hb
        simp [deliverySummaryBody] at hb
        rw [← hb]
        exact truncateBody_length_le _
      · intro c hc
        cases hc

/-- C2 witness: the amended bound instantiated at the no-comments,
general-comment delivery of a concrete run. -/
theorem c2_truncation_amended_witness :
    (∀ b, deliverySummaryBody
        (Delivery.generalComment (truncateBody (approvalBody "s"))) = some b →
      b.length ≤ 65000 + truncMarker.length) ∧
    (∀ c, Delivery.generalComment (truncateBody (approvalBody "s")) =
        Delivery.reviewComment c → c ∈ ([] : List ReviewComment)) :=
  c2_truncation_amended false [] "s" [] 0 0 0 _ (by decide)

/-- One unfolding step of the retry loop with positive fuel. -/
theorem withRetryLoop_succ {T : Type} (op : Nat → Except Err T) (cfg : RetryOptions)
    (attempt fuel : Nat) :
    withRetryLoop op cfg attempt (fuel + 1) =
      match op attempt with
      | Except.ok v => (RetryResult.ok v, 1)
      | Except.error e =>
        if attempt = cfg.maxAttempts then (RetryResult.exhausted e attempt, 1)
        else if isRetryable e cfg.retryableErrors then
          ((withRetryLoop op cfg (attempt + 1) fuel).1,
           (withRetryLoop op cfg (attempt + 1) fuel).2 + 1)
        else (RetryResult.failed e, 1) := rfl

/-- C4 counterexample: with maxAttempts = 1, a first failure that matches no
retryable marker is NOT propagated unchanged — the source checks exhaustion
before retryability, so the error is wrapped in the RetryExhausted error
(here: a single attempt, result `exhausted`, not `failed`). -/
theorem c4_nonretryable_counterexample :
    withRetry (fun _ => (Except.error invalidErr : Except Err Unit)) oneAttempt =
      (RetryResult.exhausted invalidErr 1, 1) ∧
    isRetryable invalidErr oneAttempt.retryableErrors = false := by
  constructor
  · rfl
  · decide

/-- C4 (amended): for retry options with maxAttempts at least 2, an operation
whose first failure matches no retryable marker is invoked exactly once and
its error is propagated unchanged, without consuming remaining attempts. -/
theorem c4_nonretryable_amended (T : Type) (cfg : RetryOptions)
    (op : Nat → Except Err T) (e : Err)
    (hmax : 2 ≤ cfg.maxAttempts)
    (hop : op 1 = Except.error e)
    (hnr : isRetryable e cfg.retryableErrors = false) :
    withRetry op cfg = (RetryResult.failed e, 1) := by
  unfold withRetry
  obtain ⟨m, hm⟩ : ∃ m, cfg.maxAttempts = m + 2 := ⟨cfg.maxAttempts - 2, by omega⟩
  rw [hm]
  rw [show m + 2 = (m + 1) + 1 from rfl]
  rw [withRetryLoop_succ, hop]
  simp only []
  rw [if_neg (show ¬(1 = cfg.maxAttempts) from by omega)]
  rw [hnr]
  simp

/-- C4 witness: the default three-attempt options with an operation that
always fails with "Invalid request": one invocation, the original error. -/
theorem c4_nonretryable_amended_witness :
    withRetry (fun _ => (Except.error invalidErr : Except Err Unit)) threeAttempts =
      (RetryResult.failed invalidErr, 1) :=
  c4_nonretryable_amended Unit threeAttempts _ invalidErr (by decide) rfl (by decide)

/-- The retry loop under all-retryable failures: runs the fuel down and ends
exhausted at maxAttempts, counting one invocation per unit of fuel. -/
theorem withRetryLoop_exhausts {T : Type} (op : Nat → Except Err T) (cfg : RetryOptions) :
    ∀ fuel attempt, 1 ≤ fuel → attempt + fuel = cfg.maxAttempts + 1 →
      (∀ k, attempt ≤ k → k ≤ cfg.maxAttempts →
        ∃ e, op k = Except.error e ∧ isRetryable e cfg.retryableErrors = true) →
      ∃ e, op cfg.maxAttempts = Except.error e ∧
        withRetryLoop op cfg attempt fuel = (RetryResult.exhausted e cfg.maxAttempts, fuel) := by
  intro fuel
  induction fuel with
  | zero => intro attempt h1; exact absurd h1 (by omega)
  | succ f ih =>
    intro attempt _ hsum hall
    by_cases hf : f = 0
    · subst hf
      have ha : attempt = cfg.maxAttempts := by omega
      obtain ⟨e, hop, hr⟩ := hall attempt (Nat.le_refl _) (by omega)
      refine ⟨e, by rw [← ha]; exact hop, ?_⟩
      rw [withRetryLoop_succ, hop]
      simp only []
      rw [if_pos ha, ha]
    · have hf1 : 1 ≤ f := by omega
      have hne : ¬(attempt = cfg.maxAttempts) := by omega
      obtain ⟨e, hop, hr⟩ := hall attempt (Nat.le_refl _) (by omega)
      obtain ⟨e', hop', hloop⟩ := ih (attempt + 1) hf1 (by omega)
        (fun k hk1 hk2 => hall k (by omega) hk2)
      refine ⟨e', hop', ?_⟩
      rw [withRetryLoop_succ, hop]
      simp only []
      rw [if_neg hne, if_pos hr, hloop]

/-- C5: with maxAttempts at least 1 and every attempt failing with a retryable
error, the executor invokes the operation exactly maxAttempts times (the count
component) and fails with the RetryExhausted wrapper carrying the LAST
underlying error and the attempt count; the loop is fuel-bounded by
maxAttempts, so it terminates. -/
theorem c5_retry_exhaustion (T : Type) (cfg : RetryOptions) (op : Nat → Except Err T)
    (hmax : 1 ≤ cfg.maxAttempts)
    (hall : ∀ k, 1 ≤ k → k ≤ cfg.maxAttempts →
      ∃ e, op k = Except.error e ∧ isRetryable e cfg.retryableErrors = true) :
    ∃ e, op cfg.maxAttempts = Except.error e ∧
      withRetry op cfg = (RetryResult.exhausted e cfg.maxAttempts, cfg.maxAttempts) := by
  unfold withRetry
  exact withRetryLoop_exhausts op cfg cfg.maxAttempts 1 hmax (by omega) hall

/-- C5 witness: three attempts, all failing with ETIMEDOUT — three
invocations, exhausted with attempt count 3. -/
theorem c5_retry_exhaustion_witness :
    ∃ e, (fun _ => (Except.error timeoutErr : Except Err Unit)) threeAttempts.maxAttempts =
        Except.error e ∧
      withRetry (fun _ => (Except.error timeoutErr : Except Err Unit)) threeAttempts =
        (RetryResult.exhausted e threeAttempts.maxAttempts, threeAttempts.maxAttempts) :=
  c5_retry_exhaustion Unit threeAttempts (fun _ => Except.error timeoutErr) (by decide)
    (fun k _ _ => ⟨timeoutErr, rfl, by decide⟩)

/-- C7: for an issue whose line maps to a diff position, a comment is always
emitted; when the suggestion fails validation the body is exactly the join of
the non-suggestion sections (the fenced block is omitted); and a nonempty
suggestion section can only arise from a suggestion that passed validation. -/
theorem c7_suggestion_gating (filePath : String) (issue : ReviewIssue)
    (patchLines : List String) (n : Nat)
    (hmap : mapLineToDiff issue.line patchLines = some n) :
    processIssue filePath issue patchLines =
      some { path := filePath, line := n,
             body := mkCommentBody issue (getOriginalLineContent n patchLines),
             side := "RIGHT" } ∧
    (∀ s, issue.suggestion = some s →
      isValidSuggestion s (getOriginalLineContent n patchLines) = false →
      mkCommentBody issue (getOriginalLineContent n patchLines) =
        String.intercalate "\n"
          (([headSection issue, "", issue.message]).filter (fun p => p.length != 0))) ∧
    (suggestionSection issue (getOriginalLineContent n patchLines) ≠ "" →
      ∃ s, issue.suggestion = some s ∧
        isValidSuggestion s (getOriginalLineContent n patchLines) = true) := by
  refine ⟨?_, ?_, ?_⟩
  · unfold processIssue
    rw [hmap]
  · intro s hs hinv
    unfold mkCommentBody suggestionSection
    simp only [hs]
    rw [hinv, Bool.and_false]
    rw [if_neg (show ¬(false = true) from by decide)]
    rw [show ([headSection issue, "", issue.message, ""] : List String) =
      [headSection issue, "", issue.message] ++ [""] from rfl, List.filter_append]
    simp
  · intro hne
    unfold suggestionSection at hne
    cases hsug : issue.suggestion with
    | none => rw [hsug] at hne; exact absurd rfl hne
    | some s =>
      simp only [hsug] at hne
      by_cases hg : (s.length != 0 &&
          isValidSuggestion s (getOriginalLineContent n patchLines)) = true
      · refine ⟨s, rfl, ?_⟩
        have := hg
        simp only [Bool.and_eq_true] at this
        exact this.2
      · rw [if_neg hg] at hne
        exact absurd rfl hne

/-- C7 witness: `demoIssue` (advisory suggestion, rejected) on `demoBlob`:
its line maps to position 2 and the three conjuncts hold there. -/
theorem c7_suggestion_gating_witness :
    processIssue "f.ts" demoIssue demoBlob =
      some { path := "f.ts", line := 2,
             body := mkCommentBody demoIssue (getOriginalLineContent 2 demoBlob),
             side := "RIGHT" } ∧
    (∀ s, demoIssue.suggestion = some s →
      isValidSuggestion s (getOriginalLineContent 2 demoBlob) = false →
      mkCommentBody demoIssue (getOriginalLineContent 2 demoBlob) =
        String.intercalate "\n"
          (([headSection demoIssue, "", demoIssue.message]).filter (fun p => p.length != 0))) ∧
    (suggestionSection demoIssue (getOriginalLineContent 2 demoBlob) ≠ "" →
      ∃ s, demoIssue.suggestion = some s ∧
        isValidSuggestion s (getOriginalLineContent 2 demoBlob) = true) :=
  c7_suggestion_gating "f.ts" demoIssue demoBlob 2 (by decide)

/-- C8: when a suggestion and a known original both pass rules 1-5 and both
(trimmed) contain a colon, admissibility is EQUIVALENT to equality of the
trimmed substrings before the first colon; and the spec's two concrete
examples evaluate as stated. -/
theorem c8_colon_key_rule :
    (∀ suggestion original : String,
      suggestion.length ≠ 0 → (strTrim suggestion).length ≠ 0 →
      suggestion.data.contains '\n' = false → suggestion.data.contains '\r' = false →
      original.length ≠ 0 →
      strTrim suggestion ≠ strTrim original →
      adviceIndicators.any (fun ind => strContains (strToLower (strTrim suggestion)) ind) = false →
      (strTrim original).data.contains ':' = true →
      (strTrim suggestion).data.contains ':' = true →
      (isValidSuggestion suggestion (some original) = true ↔
        strTrim (beforeFirstColon (strTrim original)) =
          strTrim (beforeFirstColon (strTrim suggestion)))) ∧
    isValidSuggestion "timeout-minutes: 10" (some "timeout-minutes: 5") = true ∧
    isValidSuggestion "runs-on: ubuntu-latest" (some "timeout-minutes: 5") = false := by
  refine ⟨?_, by decide, by decide⟩
  intro s o h1 h2 h3 h4 h5 h6 h7 h8 h9
  unfold isValidSuggestion
  rw [if_neg (not_or.mpr ⟨h1, h2⟩)]
  rw [h3, h4]
  rw [if_neg (show ¬((false || false) = true) from by decide)]
  simp only []
  rw [if_neg h5]
  rw [if_neg h6]
  rw [h7]
  rw [if_neg (show ¬(false = true) from by decide)]
  rw [h8, h9]
  rw [if_pos (show (true && true) = true from rfl)]
  by_cases hk : strTrim (beforeFirstColon (strTrim o)) = strTrim (beforeFirstColon (strTrim s))
  · rw [if_pos hk]
    simp [hk]
  · rw [if_neg hk]
    simp [hk]

/-- C8 witness: the key rule applied at "a: 1" against original "a: 2"
(matching keys, all other rules passing): admissible. -/
theorem c8_colon_key_rule_witness :
    isValidSuggestion "a: 1" (some "a: 2") = true :=
  (c8_colon_key_rule.1 "a: 1" "a: 2" (by decide) (by decide) (by decide) (by decide)
    (by decide) (by decide) (by decide) (by decide) (by decide)).mpr (by decide)
